import Mathlib

/-!
Verification of the EROS allocation engine (Emergency Response Optimization
System).  The definitions below are a shallow embedding of the Python source:

* `distance_km` embeds `backend.py`'s haversine distance (real arithmetic).
* `request_unit` embeds the `/api/request` handler of `backend.py`
  (dispatching the closest available unit of a requested type).
* `choose_factor_scenario`, `compute_station_weights` and
  `assign_vehicles_to_stations` embed the corresponding functions of
  `optimize_allocation.py` (the capacity-weighted rebalancer).

CSV rows / database rows are embedded as structures; numeric CSV fields that
the code parses with `int(...)` / `float(...)` and may fail to parse are
embedded as `Option` fields (`none` = missing or unparsable).  Coordinates
carried by vehicles and stations are embedded as rationals; the distance
computation, which is genuinely transcendental, lives over the reals.
-/

/-- One vehicle record (a row of the `vehicles` table / `vehicles.csv`). -/
structure Vehicle where
  id : String
  vtype : String
  status : String
  lat : ℚ
  lon : ℚ
  station_id : Option String
deriving DecidableEq, Repr

/-- One station record (a row of `stations.csv`).  The three capacity columns
are parsed with `int(...)` in the source; `none` embeds a missing or
unparsable entry (the source then falls back to `0`). -/
structure Station where
  id : String
  region : String
  lat : ℚ
  lon : ℚ
  capacity_ambulance : Option Int
  capacity_police : Option Int
  capacity_fire : Option Int
deriving DecidableEq, Repr

/-- One factor scenario (a row of `factors.csv`).  `expected_call_volume` is
parsed with `float(...)`; `none` embeds a missing or unparsable entry. -/
structure Factor where
  id : String
  region : String
  expected_call_volume : Option ℚ
deriving DecidableEq, Repr

/-- `safe_float` of `optimize_allocation.py`: parse, defaulting to `0.0` when
parsing fails (the parse result is the `Option` argument here). -/
def safe_float (x : Option ℚ) : ℚ := x.getD 0

/-- Python `str.strip` whitespace (space, tab, newline, carriage return,
vertical tab, form feed). -/
def isPySpace (c : Char) : Bool :=
  c = ' ' ∨ c = '\t' ∨ c = '\n' ∨ c = '\x0d' ∨ c = '\x0b' ∨ c = '\x0c'

/-- ASCII lower-casing of one character (`str.lower` on the ASCII identifiers
this program handles). -/
def lowerChar (c : Char) : Char :=
  if 65 ≤ c.toNat ∧ c.toNat ≤ 90 then Char.ofNat (c.toNat + 32) else c

/-- Python's `s.strip().lower()`, used throughout the source to normalize
types and region labels. -/
def py_norm (s : String) : String :=
  ⟨(((s.data.dropWhile isPySpace).reverse.dropWhile isPySpace).reverse).map
    lowerChar⟩

/-- Python's builtin `round` (round half to even), on exact rationals. -/
def pyRound (q : ℚ) : Int :=
  let f : Int := ⌊q⌋
  let r : ℚ := q - (f : ℚ)
  if r < 1/2 then f
  else if 1/2 < r then f + 1
  else if f % 2 = 0 then f else f + 1

/-- The fallback of `choose_factor_scenario`: Python's
`max(factors, key=lambda r: safe_float(r.get("expected_call_volume", 0.0)))`.
Python's `max` keeps the first element among ties (it replaces the current
best only on a strictly greater key); iterating in list order.  On an empty
list Python raises `ValueError`, embedded as `none`. -/
def maxByVolume (factors : List Factor) : Option Factor :=
  match factors with
  | [] => none
  | f :: rest =>
    some (rest.foldl (fun best r =>
      if safe_float best.expected_call_volume < safe_float r.expected_call_volume then r
      else best) f)

/-- `choose_factor_scenario` of `optimize_allocation.py`: if a `scenario_id`
is supplied, return the first row whose `id` matches; when none matches (or no
id was supplied) fall back to the row with the highest
`expected_call_volume`. -/
def choose_factor_scenario (factors : List Factor) (scenario_id : Option String) :
    Option Factor :=
  match scenario_id with
  | some sid =>
    match factors.find? (fun r => r.id == sid) with
    | some r => some r
    | none => maxByVolume factors
  | none => maxByVolume factors

/-- The capacity column consulted by `compute_station_weights` for a vehicle
type (`capacity_ambulance` / `capacity_police`, and `capacity_fire` for every
other string, as in the source's `if/elif/else`). -/
def cap_field (vehicle_type : String) (s : Station) : Option Int :=
  if vehicle_type = "ambulance" then s.capacity_ambulance
  else if vehicle_type = "police" then s.capacity_police
  else s.capacity_fire

/-- The hot-region multiplier `1.0 + expected_volume` of
`compute_station_weights`. -/
def hot_multiplier (factor : Factor) : ℚ :=
  1 + safe_float factor.expected_call_volume

/-- The per-station body of the loop of `compute_station_weights`: `none`
when the station contributes no entry to the weight dict (capacity parsed to
`≤ 0`, or final weight `0`), otherwise the weight stored for `s.id`. -/
def station_weight (factor : Factor) (vehicle_type : String) (s : Station) :
    Option Int :=
  let region_hot := py_norm factor.region
  let cap : Int := (cap_field vehicle_type s).getD 0
  if cap ≤ 0 then none
  else
    let region := py_norm s.region
    let w : Int :=
      if region = region_hot then pyRound ((cap : ℚ) * hot_multiplier factor)
      else pyRound ((cap : ℚ) * 1)
    let w2 : Int := if w < 0 then 0 else w
    if 0 < w2 then some w2 else none

/-- Insertion into a Python `dict` modelled as an association list: an
existing key keeps its position and gets the new value, a new key is appended
(Python dicts preserve insertion order). -/
def dict_insert (d : List (String × Int)) (k : String) (v : Int) :
    List (String × Int) :=
  if d.any (fun p => p.1 == k) then
    d.map (fun p => if p.1 == k then (k, v) else p)
  else d ++ [(k, v)]

/-- `compute_station_weights` of `optimize_allocation.py`: the weight dict
(station id → weight), in insertion order. -/
def compute_station_weights (stations : List Station) (factor : Factor)
    (vehicle_type : String) : List (String × Int) :=
  stations.foldl (fun d s =>
    match station_weight factor vehicle_type s with
    | none => d
    | some w => dict_insert d s.id w) []

/-- The keys of `vehicles_by_type` in `assign_vehicles_to_stations`. -/
def known_types : List String := ["ambulance", "police", "fire"]

/-- `v["type"].strip().lower()` — type normalization applied when grouping
vehicles by type. -/
def norm_type (v : Vehicle) : String := py_norm v.vtype

/-- The flat `weighted_station_ids` list of `assign_vehicles_to_stations`:
each station id repeated `w` times, in weight-dict order. -/
def cycle_list (stations : List Station) (factor : Factor)
    (vehicle_type : String) : List String :=
  ((compute_station_weights stations factor vehicle_type).map
    (fun p => List.replicate p.2.toNat p.1)).flatten

/-- `station_lookup.get(sid)` where `station_lookup` is built by
`build_station_lookup`: on duplicate ids the later station wins, hence the
lookup on the reversed list. -/
def station_lookup (stations : List Station) (sid : String) : Option Station :=
  stations.reverse.find? (fun s => s.id == sid)

/-- The station receiving the `i`-th vehicle of type `t` in
`assign_vehicles_to_stations` (id as stored into `station_id`, together with
the looked-up station row), or `none` when the vehicle keeps its position:
empty weight dict (`if not weights: continue`), empty cycle list
(`if not weighted_station_ids: continue`), or failed lookup
(`if not st: continue`). -/
def target_station (stations : List Station) (factor : Factor) (t : String)
    (i : Nat) : Option (String × Station) :=
  let weights := compute_station_weights stations factor t
  if weights.isEmpty then none
  else
    let cyc := cycle_list stations factor t
    if cyc.isEmpty then none
    else
      match cyc.get? (i % cyc.length) with
      | some sid =>
        match station_lookup stations sid with
        | some st => some (sid, st)
        | none => none
      | none => none

/-- The per-vehicle effect of `assign_vehicles_to_stations` on the vehicle at
index `i` of its type group: vehicles of unknown type are untouched; a
vehicle with no target station keeps its position; otherwise its
`lat`/`lon`/`station_id` are overwritten from the target station. -/
def assign_one (stations : List Station) (factor : Factor) (i : Nat)
    (v : Vehicle) : Vehicle :=
  match (if norm_type v ∈ known_types then
      target_station stations factor (norm_type v) i
    else none) with
  | some p => { v with lat := p.2.lat, lon := p.2.lon, station_id := some p.1 }
  | none => v

/-- Traversal of the vehicle list; `cnt t` counts the vehicles of normalized
type `t` already passed, so a vehicle receives its index inside its type
group (`enumerate(vlist)` in the source). -/
def assign_go (stations : List Station) (factor : Factor) :
    List Vehicle → (String → Nat) → List Vehicle
  | [], _ => []
  | v :: rest, cnt =>
    let t := norm_type v
    assign_one stations factor (cnt t) v ::
      assign_go stations factor rest (fun s => if s = t then cnt t + 1 else cnt s)

/-- `assign_vehicles_to_stations` of `optimize_allocation.py` as a pure
function on the vehicle list (the source mutates the dicts in place and
returns the same list). -/
def assign_vehicles_to_stations (vehicles : List Vehicle)
    (stations : List Station) (factor : Factor) : List Vehicle :=
  assign_go stations factor vehicles (fun _ => 0)

/-- `math.radians`: degrees to radians. -/
noncomputable def radians (x : ℝ) : ℝ := x * (Real.pi / 180)

/-- `math.atan2` (the C99 / Python convention; `atan2 0 0 = 0` as in
Python on positive zeros). -/
noncomputable def atan2 (y x : ℝ) : ℝ :=
  if 0 < x then Real.arctan (y / x)
  else if x < 0 then
    if 0 ≤ y then Real.arctan (y / x) + Real.pi
    else Real.arctan (y / x) - Real.pi
  else
    if 0 < y then Real.pi / 2
    else if y < 0 then -(Real.pi / 2)
    else 0

/-- The intermediate `a` of `distance_km` (the haversine of the central
angle). -/
noncomputable def hav_a (lat1 lon1 lat2 lon2 : ℝ) : ℝ :=
  Real.sin (radians (lat2 - lat1) / 2) ^ 2 +
    Real.cos (radians lat1) * Real.cos (radians lat2) *
      Real.sin (radians (lon2 - lon1) / 2) ^ 2

/-- `distance_km` of `backend.py`: haversine distance with Earth radius
`6371.0` km, over exact reals. -/
noncomputable def distance_km (lat1 lon1 lat2 lon2 : ℝ) : ℝ :=
  let a := hav_a lat1 lon1 lat2 lon2
  let c := 2 * atan2 (Real.sqrt a) (Real.sqrt (1 - a))
  6371.0 * c

/-- The distance function the dispatcher applies to the rational coordinates
held in the data model. -/
noncomputable def haversineQ (lat1 lon1 lat2 lon2 : ℚ) : ℝ :=
  distance_km (lat1 : ℝ) (lon1 : ℝ) (lat2 : ℝ) (lon2 : ℝ)

/-- Result of the `/api/request` handler.  The first two constructors are the
two `400` "invalid location" responses, `no_available_unit` the `400`
"No available unit" response, `internal_error` the defensive `500`, and
`assigned` the success payload (unit id, unit origin, requested
destination). -/
inductive ReqResult where
  | invalid_location
  | location_not_numeric
  | no_available_unit
  | internal_error
  | assigned (unit : String) (fromLat fromLon toLat toLon : ℚ)
deriving DecidableEq, Repr

/-- The selection loop of `request_unit`: `best_unit = None`,
`min_dist = inf`, replace on a strictly smaller distance.  Generic in the
ordered type of distances. -/
def select_closest {K : Type} [LinearOrder K] (dist : Vehicle → K)
    (candidates : List Vehicle) : Option Vehicle :=
  (candidates.foldl (fun acc v =>
    match acc with
    | none => some (v, dist v)
    | some (b, db) => if dist v < db then some (v, dist v) else some (b, db))
    none).map (fun p => p.1)

/-- Recursive form of the selection loop, with the current best candidate as
accumulator (the fold of `select_closest` maintains `(best, dist best)`). -/
def select_go {K : Type} [LinearOrder K] (dist : Vehicle → K) :
    List Vehicle → Vehicle → Vehicle
  | [], b => b
  | v :: rest, b =>
    if dist v < dist b then select_go dist rest v else select_go dist rest b

/-- The per-station weight as the specification words it (for comparison with
`station_weight`, which is read off the source): stations whose capacity for
the type is missing, unparsable or zero are excluded; otherwise the weight is
the integer capacity, multiplied by `(1 + expected_call_volume)` and rounded
to the nearest integer (ties as Python's `round`) when the station's region
matches the scenario's hot region case-insensitively, unchanged otherwise;
the weight is clamped to be non-negative, and a weight of exactly `0`
excludes the station. -/
def spec_weight (factor : Factor) (vehicle_type : String) (s : Station) :
    Option Int :=
  match cap_field vehicle_type s with
  | none => none
  | some cap =>
    if cap = 0 then none
    else
      let w : Int :=
        if py_norm s.region = py_norm factor.region then
          pyRound ((cap : ℚ) * (1 + safe_float factor.expected_call_volume))
        else cap
      let w2 : Int := max w 0
      if w2 = 0 then none else some w2

/-- `request_unit` of `backend.py` as a function of the fleet snapshot: the
location is an optional JSON array whose entries may or may not be
convertible by `float(...)` (`none` = not numeric).  Returns the response
together with the fleet after the call (the `UPDATE ... SET status='busy'`
marks every row whose `id` equals the selected unit's id). -/
def request_unit {K : Type} [LinearOrder K] (D : ℚ → ℚ → ℚ → ℚ → K)
    (fleet : List Vehicle) (rtype : String) (loc : Option (List (Option ℚ))) :
    ReqResult × List Vehicle :=
  let req_type := py_norm rtype
  match loc with
  | none => (.invalid_location, fleet)
  | some l =>
    if l.length ≠ 2 then (.invalid_location, fleet)
    else
      match l with
      | [some lat, some lon] =>
        let candidates :=
          fleet.filter (fun v => v.vtype == req_type && v.status == "available")
        if candidates.isEmpty then (.no_available_unit, fleet)
        else
          match select_closest (fun v => D lat lon v.lat v.lon) candidates with
          | none => (.internal_error, fleet)
          | some best =>
            (.assigned best.id best.lat best.lon lat lon,
              fleet.map (fun w =>
                if w.id = best.id then { w with status := "busy" } else w))
      | _ => (.location_not_numeric, fleet)

/-! ### General helper lemmas -/

theorem pyRound_intCast (c : Int) : pyRound ((c : ℚ)) = c := by
  unfold pyRound
  norm_num

theorem maxByVolume_spec (factors : List Factor) (hne : factors ≠ []) :
    ∃ m, maxByVolume factors = some m ∧ m ∈ factors ∧
      ∀ r ∈ factors,
        safe_float r.expected_call_volume ≤ safe_float m.expected_call_volume := by
  match factors, hne with
  | f :: rest, _ =>
    have key : ∀ (l : List Factor) (b : Factor),
        (l.foldl (fun best r =>
            if safe_float best.expected_call_volume <
                safe_float r.expected_call_volume then r
            else best) b) ∈ b :: l ∧
        ∀ r ∈ b :: l,
          safe_float r.expected_call_volume ≤
            safe_float (l.foldl (fun best r =>
              if safe_float best.expected_call_volume <
                  safe_float r.expected_call_volume then r
              else best) b).expected_call_volume := by
      intro l
      induction l with
      | nil =>
        intro b
        refine ⟨by simp, ?_⟩
        intro r hr
        simp only [List.mem_singleton] at hr
        subst hr
        exact le_refl _
      | cons x xs ih =>
        intro b
        simp only [List.foldl_cons]
        by_cases hc : safe_float b.expected_call_volume <
            safe_float x.expected_call_volume
        · rw [if_pos hc]
          obtain ⟨hmem, hmax⟩ := ih x
          constructor
          · exact List.mem_cons_of_mem _ hmem
          · intro r hr
            rcases List.mem_cons.mp hr with h | h
            · subst h
              exact le_trans (le_of_lt hc) (hmax x (List.mem_cons_self _ _))
            · exact hmax r h
        · rw [if_neg hc]
          obtain ⟨hmem, hmax⟩ := ih b
          constructor
          · rcases List.mem_cons.mp hmem with h | h
            · rw [h]
              exact List.mem_cons_self _ _
            · exact List.mem_cons_of_mem _ (List.mem_cons_of_mem _ h)
          · intro r hr
            rcases List.mem_cons.mp hr with h | h
            · rw [h]
              exact hmax b (List.mem_cons_self _ _)
            · rcases List.mem_cons.mp h with h2 | h2
              · rw [h2]
                exact le_trans (le_of_not_lt hc) (hmax b (List.mem_cons_self _ _))
              · exact hmax r (List.mem_cons_of_mem _ h2)
    obtain ⟨hmem, hmax⟩ := key rest f
    exact ⟨_, rfl, hmem, hmax⟩

/-! ### Claim C2 (scenario selection with an unknown explicit id) -/

/-- C2 counterexample: a one-scenario list and an explicit id matching no
scenario.  The claim says `choose_factor_scenario` must fail with
`ScenarioNotFoundError` and return no scenario; the code silently returns the
fallback scenario. -/
theorem C2_counterexample :
    choose_factor_scenario [⟨"1", "downtown", some 1⟩] (some "2")
      = some ⟨"1", "downtown", some 1⟩ := by
  decide

/-- C2 as amended: when the explicitly supplied scenario id matches no
scenario in a non-empty list, `choose_factor_scenario` does not fail; it
falls back to the scenario with the highest `expected_call_volume` (the
first such in input order) and returns it. -/
theorem C2_unknown_id_falls_back (factors : List Factor) (sid : String)
    (hne : factors ≠ []) (hmiss : ∀ r ∈ factors, r.id ≠ sid) :
    ∃ m, choose_factor_scenario factors (some sid) = some m ∧
      maxByVolume factors = some m ∧ m ∈ factors ∧
      ∀ r ∈ factors,
        safe_float r.expected_call_volume ≤ safe_float m.expected_call_volume := by
  have hfind : factors.find? (fun r => r.id == sid) = none := by
    rw [List.find?_eq_none]
    intro r hr
    simpa using hmiss r hr
  obtain ⟨m, hm, hmem, hmax⟩ := maxByVolume_spec factors hne
  refine ⟨m, ?_, hm, hmem, hmax⟩
  simp only [choose_factor_scenario, hfind, hm]

/-- Witness for `C2_unknown_id_falls_back` at a concrete input. -/
theorem C2_unknown_id_falls_back_witness :
    ([⟨"1", "downtown", some 1⟩, ⟨"7", "uptown", some 2⟩] : List Factor) ≠ [] ∧
    (∀ r ∈ ([⟨"1", "downtown", some 1⟩, ⟨"7", "uptown", some 2⟩] : List Factor),
      r.id ≠ "5") ∧
    ∃ m, choose_factor_scenario
          [⟨"1", "downtown", some 1⟩, ⟨"7", "uptown", some 2⟩] (some "5") = some m ∧
        maxByVolume [⟨"1", "downtown", some 1⟩, ⟨"7", "uptown", some 2⟩] = some m ∧
        m ∈ ([⟨"1", "downtown", some 1⟩, ⟨"7", "uptown", some 2⟩] : List Factor) ∧
        ∀ r ∈ ([⟨"1", "downtown", some 1⟩, ⟨"7", "uptown", some 2⟩] : List Factor),
          safe_float r.expected_call_volume ≤ safe_float m.expected_call_volume :=
  ⟨by decide, by decide,
    C2_unknown_id_falls_back _ _ (by decide) (by decide)⟩

/-! ### Claim C3 (request validation) -/

/-- C3 counterexample: a request whose type is not one of the three known
categories but whose location is well-formed.  The claim says `request_unit`
must fail with `InvalidRequestError`; the code never validates the type and
fails with the no-available-unit error instead. -/
theorem C3_counterexample :
    request_unit haversineQ [] "plumber" (some [some 0, some 0])
      = (.no_available_unit, []) ∧
    (request_unit haversineQ [] "plumber" (some [some 0, some 0])).1
      ≠ .invalid_location ∧
    (request_unit haversineQ [] "plumber" (some [some 0, some 0])).1
      ≠ .location_not_numeric := by
  have h : request_unit haversineQ [] "plumber" (some [some 0, some 0])
      = (.no_available_unit, []) := rfl
  exact ⟨h, by rw [h]; decide, by rw [h]; decide⟩

/-- C3 as amended: `request_unit` responds with one of the two
invalid-request errors exactly when the location is not a well-formed
coordinate pair; the type string is never validated (the equivalence holds
for every type string, known or not — an unknown type with a well-formed
location proceeds to candidate lookup). -/
theorem C3_invalid_iff_malformed_location {K : Type} [LinearOrder K]
    (D : ℚ → ℚ → ℚ → ℚ → K) (fleet : List Vehicle) (rtype : String)
    (loc : Option (List (Option ℚ))) :
    ((request_unit D fleet rtype loc).1 = .invalid_location ∨
      (request_unit D fleet rtype loc).1 = .location_not_numeric)
      ↔ ¬ ∃ lat lon, loc = some [some lat, some lon] := by
  constructor
  · rintro h ⟨lat, lon, rfl⟩
    simp only [request_unit] at h
    norm_num at h
    rcases h with h | h <;>
      (split at h <;> simp_all) <;> (split at h <;> simp_all)
  · intro h
    match loc with
    | none => exact Or.inl rfl
    | some [] => exact Or.inl (by simp [request_unit])
    | some [a] => exact Or.inl (by simp [request_unit])
    | some (a :: b :: c :: rest) => exact Or.inl (by simp [request_unit])
    | some [none, b] => exact Or.inr (by simp [request_unit])
    | some [some x, none] => exact Or.inr (by simp [request_unit])
    | some [some x, some y] => exact absurd ⟨x, y, rfl⟩ h

/-! ### Claim C7 (no available unit: error, no mutation) -/

/-- C7: a well-formed request for a type with no available unit returns the
no-available-unit error and leaves the fleet exactly as it was. -/
theorem C7_no_available_unit_no_mutation (fleet : List Vehicle)
    (rtype : String) (lat lon : ℚ)
    (hempty : fleet.filter
        (fun v => v.vtype == py_norm rtype && v.status == "available") = []) :
    request_unit haversineQ fleet rtype (some [some lat, some lon])
      = (.no_available_unit, fleet) := by
  simp [request_unit, hempty]

/-- Witness for `C7_no_available_unit_no_mutation` at a concrete input (one
busy ambulance, an ambulance request). -/
theorem C7_no_available_unit_no_mutation_witness :
    ([⟨"u1", "ambulance", "busy", 3, 4, none⟩] : List Vehicle).filter
        (fun v => v.vtype == py_norm "ambulance" && v.status == "available")
      = [] ∧
    request_unit haversineQ [⟨"u1", "ambulance", "busy", 3, 4, none⟩]
        "ambulance" (some [some 1, some 2])
      = (.no_available_unit, [⟨"u1", "ambulance", "busy", 3, 4, none⟩]) :=
  ⟨by decide, C7_no_available_unit_no_mutation _ _ _ _ (by decide)⟩

/-! ### Claim C10 (unknown-type vehicles are untouched) -/

theorem assign_go_length (stations : List Station) (factor : Factor) :
    ∀ (vs : List Vehicle) (cnt : String → Nat),
      (assign_go stations factor vs cnt).length = vs.length := by
  intro vs
  induction vs with
  | nil => intro cnt; rfl
  | cons w rest ih =>
    intro cnt
    simp only [assign_go, List.length_cons, ih]

theorem assign_go_get?_unknown (stations : List Station) (factor : Factor) :
    ∀ (vs : List Vehicle) (cnt : String → Nat) (i : Nat) (v : Vehicle),
      vs.get? i = some v → norm_type v ∉ known_types →
      (assign_go stations factor vs cnt).get? i = some v := by
  intro vs
  induction vs with
  | nil =>
    intro cnt i v h _
    simp at h
  | cons w rest ih =>
    intro cnt i v h hunk
    match i with
    | 0 =>
      rw [List.get?_cons_zero] at h
      obtain rfl := Option.some.inj h
      simp only [assign_go, List.get?_cons_zero, assign_one]
      rw [if_neg hunk]
    | Nat.succ j =>
      rw [List.get?_cons_succ] at h
      simp only [assign_go, List.get?_cons_succ]
      exact ih _ j v h hunk

/-- C10: a vehicle whose normalized type is not `ambulance`, `police` or
`fire` is returned by the rebalancer exactly as it came in (same position in
the list, every field identical). -/
theorem C10_unknown_type_untouched (vehicles : List Vehicle)
    (stations : List Station) (factor : Factor) (i : Nat) (v : Vehicle)
    (hv : vehicles.get? i = some v) (hunk : norm_type v ∉ known_types) :
    (assign_vehicles_to_stations vehicles stations factor).length
        = vehicles.length ∧
    (assign_vehicles_to_stations vehicles stations factor).get? i = some v :=
  ⟨assign_go_length stations factor vehicles _,
    assign_go_get?_unknown stations factor vehicles _ i v hv hunk⟩

/-- Witness for `C10_unknown_type_untouched`: a `boat` vehicle survives a
rebalance bit-for-bit. -/
theorem C10_unknown_type_untouched_witness :
    ([⟨"b1", "boat", "available", 1, 2, none⟩] : List Vehicle).get? 0
        = some ⟨"b1", "boat", "available", 1, 2, none⟩ ∧
    norm_type ⟨"b1", "boat", "available", 1, 2, none⟩ ∉ known_types ∧
    (assign_vehicles_to_stations [⟨"b1", "boat", "available", 1, 2, none⟩]
        [⟨"s1", "east", 5, 6, some 2, none, none⟩] ⟨"1", "east", some 1⟩).length
        = 1 ∧
    (assign_vehicles_to_stations [⟨"b1", "boat", "available", 1, 2, none⟩]
        [⟨"s1", "east", 5, 6, some 2, none, none⟩] ⟨"1", "east", some 1⟩).get? 0
      = some ⟨"b1", "boat", "available", 1, 2, none⟩ := by
  refine ⟨rfl, by decide, ?_, ?_⟩
  · exact (C10_unknown_type_untouched [⟨"b1", "boat", "available", 1, 2, none⟩]
      [⟨"s1", "east", 5, 6, some 2, none, none⟩] ⟨"1", "east", some 1⟩ 0
      ⟨"b1", "boat", "available", 1, 2, none⟩ rfl (by decide)).1
  · exact (C10_unknown_type_untouched [⟨"b1", "boat", "available", 1, 2, none⟩]
      [⟨"s1", "east", 5, 6, some 2, none, none⟩] ⟨"1", "east", some 1⟩ 0
      ⟨"b1", "boat", "available", 1, 2, none⟩ rfl (by decide)).2

/-! ### Claim C9 (haversine distance: nonnegative, zero on the diagonal, symmetric) -/

theorem atan2_nonneg {y x : ℝ} (hy : 0 ≤ y) : 0 ≤ atan2 y x := by
  unfold atan2
  rcases lt_trichotomy x 0 with hx | hx | hx
  · rw [if_neg (by linarith), if_pos hx, if_pos hy]
    have h1 := Real.neg_pi_div_two_lt_arctan (y / x)
    have h2 := Real.pi_pos
    linarith
  · subst hx
    rw [if_neg (lt_irrefl 0), if_neg (lt_irrefl 0)]
    rcases lt_or_eq_of_le hy with hy2 | hy2
    · rw [if_pos hy2]
      have h2 := Real.pi_pos
      linarith
    · rw [if_neg (by rw [← hy2]; exact lt_irrefl 0),
        if_neg (by rw [← hy2]; exact lt_irrefl 0)]
  · rw [if_pos hx, ← Real.arctan_zero]
    exact Real.arctan_strictMono.monotone (div_nonneg hy (le_of_lt hx))

theorem hav_a_self (lat lon : ℝ) : hav_a lat lon lat lon = 0 := by
  simp [hav_a, radians]

theorem hav_a_symm (lat1 lon1 lat2 lon2 : ℝ) :
    hav_a lat1 lon1 lat2 lon2 = hav_a lat2 lon2 lat1 lon1 := by
  unfold hav_a radians
  rw [show lat1 - lat2 = -(lat2 - lat1) by ring,
    show lon1 - lon2 = -(lon2 - lon1) by ring,
    neg_mul, neg_div, Real.sin_neg, neg_mul, neg_div, Real.sin_neg]
  ring

/-- C9: `distance_km` is non-negative, returns exactly `0` on identical
coordinate pairs, and is symmetric in its two coordinate pairs (haversine
formula with Earth radius 6371.0 km, over exact reals). -/
theorem C9_distance_properties (lat1 lon1 lat2 lon2 : ℝ) :
    0 ≤ distance_km lat1 lon1 lat2 lon2 ∧
    distance_km lat1 lon1 lat1 lon1 = 0 ∧
    distance_km lat1 lon1 lat2 lon2 = distance_km lat2 lon2 lat1 lon1 := by
  refine ⟨?_, ?_, ?_⟩
  · unfold distance_km
    have h := atan2_nonneg
      (x := Real.sqrt (1 - hav_a lat1 lon1 lat2 lon2))
      (Real.sqrt_nonneg (hav_a lat1 lon1 lat2 lon2))
    exact mul_nonneg (by norm_num) (mul_nonneg (by norm_num) h)
  · unfold distance_km
    rw [hav_a_self]
    norm_num [atan2, Real.arctan_zero]
  · unfold distance_km
    rw [hav_a_symm]

/-! ### The rebalancer never reads or writes `status` (claims C1, C8) -/

theorem assign_one_status (stations : List Station) (factor : Factor)
    (i : Nat) (v : Vehicle) :
    (assign_one stations factor i v).status = v.status := by
  simp only [assign_one]
  cases (if norm_type v ∈ known_types then
      target_station stations factor (norm_type v) i else none) <;> rfl

theorem assign_one_vtype (stations : List Station) (factor : Factor)
    (i : Nat) (v : Vehicle) :
    (assign_one stations factor i v).vtype = v.vtype := by
  simp only [assign_one]
  cases (if norm_type v ∈ known_types then
      target_station stations factor (norm_type v) i else none) <;> rfl

theorem assign_one_norm_type (stations : List Station) (factor : Factor)
    (i : Nat) (v : Vehicle) :
    norm_type (assign_one stations factor i v) = norm_type v := by
  unfold norm_type
  rw [assign_one_vtype]

theorem assign_one_set_status (stations : List Station) (factor : Factor)
    (i : Nat) (v : Vehicle) (g : String) :
    assign_one stations factor i { v with status := g }
      = { assign_one stations factor i v with status := g } := by
  have hnt : norm_type { v with status := g } = norm_type v := rfl
  simp only [assign_one, hnt]
  cases (if norm_type v ∈ known_types then
      target_station stations factor (norm_type v) i else none) <;> rfl

theorem assign_one_idem (stations : List Station) (factor : Factor)
    (i : Nat) (v : Vehicle) :
    assign_one stations factor i (assign_one stations factor i v)
      = assign_one stations factor i v := by
  cases hts : (if norm_type v ∈ known_types then
      target_station stations factor (norm_type v) i else none) with
  | none =>
    have hA : assign_one stations factor i v = v := by
      simp only [assign_one, hts]
    rw [hA]
    exact hA
  | some p =>
    have hA : assign_one stations factor i v
        = { v with lat := p.2.lat, lon := p.2.lon, station_id := some p.1 } := by
      simp only [assign_one, hts]
    rw [hA]
    have hnt : norm_type
        { v with lat := p.2.lat, lon := p.2.lon, station_id := some p.1 }
        = norm_type v := rfl
    simp only [assign_one, hnt, hts]

theorem assign_go_status (stations : List Station) (factor : Factor) :
    ∀ (vs : List Vehicle) (cnt : String → Nat),
      (assign_go stations factor vs cnt).map (fun v => v.status)
        = vs.map (fun v => v.status) := by
  intro vs
  induction vs with
  | nil => intro cnt; rfl
  | cons w rest ih =>
    intro cnt
    simp only [assign_go, List.map_cons, assign_one_status, ih]

theorem assign_go_set_status (stations : List Station) (factor : Factor)
    (g : String → String) :
    ∀ (vs : List Vehicle) (cnt : String → Nat),
      assign_go stations factor
          (vs.map (fun v => { v with status := g v.status })) cnt
        = (assign_go stations factor vs cnt).map
            (fun v => { v with status := g v.status }) := by
  intro vs
  induction vs with
  | nil => intro cnt; rfl
  | cons w rest ih =>
    intro cnt
    simp only [List.map_cons, assign_go]
    have hnt : norm_type { w with status := g w.status } = norm_type w := rfl
    rw [hnt, assign_one_set_status, ih, assign_one_status]

theorem assign_go_idem (stations : List Station) (factor : Factor) :
    ∀ (vs : List Vehicle) (cnt : String → Nat),
      assign_go stations factor (assign_go stations factor vs cnt) cnt
        = assign_go stations factor vs cnt := by
  intro vs
  induction vs with
  | nil => intro cnt; rfl
  | cons w rest ih =>
    intro cnt
    simp only [assign_go]
    rw [assign_one_norm_type, assign_one_idem, ih]

/-! ### Claim C1 (busy units and rebalancing) -/

/-- C1 counterexample: a single `busy` ambulance and a station housing
ambulances.  The claim says the rebalancer never alters the position or
`station_id` of a busy unit; the code rewrites both (it never consults
`status`). -/
theorem C1_counterexample :
    (⟨"v1", "ambulance", "busy", 0, 0, none⟩ : Vehicle).status = "busy" ∧
    assign_vehicles_to_stations [⟨"v1", "ambulance", "busy", 0, 0, none⟩]
        [⟨"s1", "east", 5, 6, some 2, none, none⟩] ⟨"1", "west", some 0⟩
      = [⟨"v1", "ambulance", "busy", 5, 6, some "s1"⟩] := by
  refine ⟨rfl, ?_⟩
  have h1 : py_norm "ambulance" = "ambulance" := by decide
  have h2 : py_norm "east" = "east" := by decide
  have h3 : py_norm "west" = "west" := by decide
  have h5 : pyRound ((2 : ℚ) * 1) = 2 := by
    rw [show ((2 : ℚ) * 1) = ((2 : Int) : ℚ) by norm_num, pyRound_intCast]
  have h6 : pyRound ((2 : ℚ)) = 2 := by
    rw [show ((2 : ℚ)) = ((2 : Int) : ℚ) by norm_num, pyRound_intCast]
  simp [assign_vehicles_to_stations, assign_go, assign_one, target_station,
    norm_type, known_types, cycle_list, compute_station_weights, station_weight,
    cap_field, hot_multiplier, safe_float, dict_insert, station_lookup,
    h1, h2, h3, h5, h6, mul_one]

/-- C1 as amended: `assign_vehicles_to_stations` never consults or alters
`status`.  Rewriting every unit's status (in particular exchanging `busy` and
`available`) commutes with the rebalancer, and the output statuses equal the
input statuses — so busy units are repositioned exactly like available ones,
rather than being left untouched. -/
theorem C1_status_blind (vehicles : List Vehicle) (stations : List Station)
    (factor : Factor) (g : String → String) :
    assign_vehicles_to_stations
        (vehicles.map (fun v => { v with status := g v.status })) stations factor
      = (assign_vehicles_to_stations vehicles stations factor).map
          (fun v => { v with status := g v.status }) ∧
    (assign_vehicles_to_stations vehicles stations factor).map (fun v => v.status)
      = vehicles.map (fun v => v.status) :=
  ⟨assign_go_set_status stations factor g vehicles _,
    assign_go_status stations factor vehicles _⟩

/-! ### Claim C8 (determinism and idempotence of rebalancing) -/

/-- C8: the rebalancer is a pure deterministic function of its inputs (two
invocations on identical inputs give identical output), and it is moreover
idempotent: rebalancing an already-rebalanced fleet changes nothing. -/
theorem C8_deterministic_idempotent (vehicles : List Vehicle)
    (stations : List Station) (factor : Factor) :
    assign_vehicles_to_stations vehicles stations factor
        = assign_vehicles_to_stations vehicles stations factor ∧
    assign_vehicles_to_stations
        (assign_vehicles_to_stations vehicles stations factor) stations factor
      = assign_vehicles_to_stations vehicles stations factor :=
  ⟨rfl, assign_go_idem stations factor vehicles _⟩

/-! ### Claim C4 (closest available unit, first-wins tie-break, exclusive reservation) -/

theorem select_closest_cons {K : Type} [LinearOrder K] (dist : Vehicle → K)
    (x : Vehicle) (xs : List Vehicle) :
    select_closest dist (x :: xs) = some (select_go dist xs x) := by
  have aux : ∀ (l : List Vehicle) (b : Vehicle),
      l.foldl (fun acc v =>
        match acc with
        | none => some (v, dist v)
        | some (b2, db) => if dist v < db then some (v, dist v) else some (b2, db))
        (some (b, dist b))
      = some (select_go dist l b, dist (select_go dist l b)) := by
    intro l
    induction l with
    | nil => intro b; rfl
    | cons v rest ih =>
      intro b
      simp only [List.foldl_cons, select_go]
      by_cases hc : dist v < dist b
      · rw [if_pos hc, if_pos hc]
        exact ih v
      · rw [if_neg hc, if_neg hc]
        exact ih b
  unfold select_closest
  simp only [List.foldl_cons]
  rw [aux xs x]
  rfl

theorem select_go_spec {K : Type} [LinearOrder K] (dist : Vehicle → K) :
    ∀ (xs : List Vehicle) (b : Vehicle),
      ∃ l1 l2, b :: xs = l1 ++ select_go dist xs b :: l2 ∧
        (∀ v ∈ l1, dist (select_go dist xs b) < dist v) ∧
        (∀ v ∈ b :: xs, dist (select_go dist xs b) ≤ dist v) := by
  intro xs
  induction xs with
  | nil =>
    intro b
    refine ⟨[], [], rfl, by simp, ?_⟩
    intro v hv
    simp only [List.mem_singleton] at hv
    rw [hv]
    exact le_refl _
  | cons v rest ih =>
    intro b
    simp only [select_go]
    by_cases hc : dist v < dist b
    · rw [if_pos hc]
      obtain ⟨l1, l2, hdec, hl1, hmin⟩ := ih v
      refine ⟨b :: l1, l2, ?_, ?_, ?_⟩
      · rw [List.cons_append, ← hdec]
      · intro u hu
        rcases List.mem_cons.mp hu with h | h
        · rw [h]
          exact lt_of_le_of_lt (hmin v (List.mem_cons_self _ _)) hc
        · exact hl1 u h
      · intro u hu
        rcases List.mem_cons.mp hu with h | h
        · rw [h]
          exact le_trans (hmin v (List.mem_cons_self _ _)) (le_of_lt hc)
        · exact hmin u h
    · rw [if_neg hc]
      obtain ⟨l1, l2, hdec, hl1, hmin⟩ := ih b
      match l1, hdec with
      | [], hdec =>
        rw [List.nil_append] at hdec
        have hb : b = select_go dist rest b := (List.cons.injEq _ _ _ _).mp hdec |>.1
        have hrest : rest = l2 := (List.cons.injEq _ _ _ _).mp hdec |>.2
        refine ⟨[], v :: l2, ?_, by simp, ?_⟩
        · rw [List.nil_append, ← hb, ← hrest]
        · intro u hu
          rcases List.mem_cons.mp hu with h | h
          · rw [h]
            exact hmin b (List.mem_cons_self _ _)
          · rcases List.mem_cons.mp h with h2 | h2
            · rw [h2]
              exact le_trans (hmin b (List.mem_cons_self _ _)) (le_of_not_lt hc)
            · exact hmin u (List.mem_cons_of_mem _ h2)
      | b1 :: l1', hdec =>
        rw [List.cons_append] at hdec
        have hb : b = b1 := (List.cons.injEq _ _ _ _).mp hdec |>.1
        have hrest : rest = l1' ++ select_go dist rest b :: l2 :=
          (List.cons.injEq _ _ _ _).mp hdec |>.2
        refine ⟨b :: v :: l1', l2, ?_, ?_, ?_⟩
        · rw [show (b :: v :: l1') ++ select_go dist rest b :: l2
              = b :: v :: (l1' ++ select_go dist rest b :: l2) by simp, ← hrest]
        · intro u hu
          have hrb : dist (select_go dist rest b) < dist b := by
            have := hl1 b1 (List.mem_cons_self _ _)
            rw [← hb] at this
            exact this
          rcases List.mem_cons.mp hu with h | h
          · rw [h]
            exact hrb
          · rcases List.mem_cons.mp h with h2 | h2
            · rw [h2]
              exact lt_of_lt_of_le hrb (le_of_not_lt hc)
            · exact hl1 u (List.mem_cons_of_mem _ h2)
        · intro u hu
          rcases List.mem_cons.mp hu with h | h
          · rw [h]
            exact hmin b (List.mem_cons_self _ _)
          · rcases List.mem_cons.mp h with h2 | h2
            · rw [h2]
              exact le_trans (hmin b (List.mem_cons_self _ _)) (le_of_not_lt hc)
            · exact hmin u (List.mem_cons_of_mem _ h2)

theorem request_unit_success {K : Type} [LinearOrder K]
    (D : ℚ → ℚ → ℚ → ℚ → K) (fleet : List Vehicle) (rtype : String)
    (lat lon : ℚ) (x : Vehicle) (xs : List Vehicle)
    (hC : fleet.filter
        (fun v => v.vtype == py_norm rtype && v.status == "available")
      = x :: xs) :
    request_unit D fleet rtype (some [some lat, some lon])
      = (.assigned (select_go (fun v => D lat lon v.lat v.lon) xs x).id
          (select_go (fun v => D lat lon v.lat v.lon) xs x).lat
          (select_go (fun v => D lat lon v.lat v.lon) xs x).lon lat lon,
         fleet.map (fun w =>
           if w.id = (select_go (fun v => D lat lon v.lat v.lon) xs x).id then
             { w with status := "busy" }
           else w)) := by
  simp only [request_unit, hC, select_closest_cons]
  norm_num

/-- C4: on a valid request with a non-empty candidate set, `request_unit`
selects the candidate of minimal haversine distance to the request location —
the first such candidate in the listing order — responds with exactly that
unit, and the updated fleet marks exactly that one unit `busy` (every other
unit is returned unchanged). -/
theorem C4_closest_first_and_reserved (fleet : List Vehicle) (rtype : String)
    (lat lon : ℚ)
    (hnd : (fleet.map (fun v => v.id)).Nodup)
    (hne : fleet.filter
        (fun v => v.vtype == py_norm rtype && v.status == "available") ≠ []) :
    ∃ best ∈ fleet.filter
        (fun v => v.vtype == py_norm rtype && v.status == "available"),
      (∃ l1 l2,
        fleet.filter (fun v => v.vtype == py_norm rtype && v.status == "available")
          = l1 ++ best :: l2 ∧
        ∀ v ∈ l1, haversineQ lat lon best.lat best.lon
            < haversineQ lat lon v.lat v.lon) ∧
      (∀ v ∈ fleet.filter
          (fun v => v.vtype == py_norm rtype && v.status == "available"),
        haversineQ lat lon best.lat best.lon ≤ haversineQ lat lon v.lat v.lon) ∧
      request_unit haversineQ fleet rtype (some [some lat, some lon])
        = (.assigned best.id best.lat best.lon lat lon,
           fleet.map (fun w =>
             if w.id = best.id then { w with status := "busy" } else w)) ∧
      (fleet.map (fun v => v.id)).count best.id = 1 := by
  obtain ⟨x, xs, hC⟩ : ∃ x xs, fleet.filter
      (fun v => v.vtype == py_norm rtype && v.status == "available")
      = x :: xs := by
    cases h : fleet.filter
        (fun v => v.vtype == py_norm rtype && v.status == "available") with
    | nil => exact absurd h hne
    | cons a b => exact ⟨a, b, rfl⟩
  obtain ⟨l1, l2, hdec, hl1, hmin⟩ :=
    select_go_spec (fun v => haversineQ lat lon v.lat v.lon) xs x
  set r := select_go (fun v => haversineQ lat lon v.lat v.lon) xs x with hr
  have hrC : r ∈ fleet.filter
      (fun v => v.vtype == py_norm rtype && v.status == "available") := by
    rw [hC, hdec]
    exact List.mem_append_right _ (List.mem_cons_self _ _)
  have hrfleet : r ∈ fleet := List.mem_of_mem_filter hrC
  refine ⟨r, hrC, ⟨l1, l2, by rw [hC]; exact hdec, hl1⟩, ?_, ?_, ?_⟩
  · intro v hv
    rw [hC] at hv
    exact hmin v hv
  · exact request_unit_success haversineQ fleet rtype lat lon x xs hC
  · exact List.count_eq_one_of_mem hnd (List.mem_map_of_mem _ hrfleet)

/-- Witness for `C4_closest_first_and_reserved`: three available ambulances
with distinct ids (two of them equidistant from the incident). -/
theorem C4_closest_first_and_reserved_witness :
    (([⟨"u1", "ambulance", "available", 10, 0, none⟩,
       ⟨"u2", "ambulance", "available", 1, 1, none⟩,
       ⟨"u3", "ambulance", "available", 1, 1, none⟩] : List Vehicle).map
        (fun v => v.id)).Nodup ∧
    ([⟨"u1", "ambulance", "available", 10, 0, none⟩,
      ⟨"u2", "ambulance", "available", 1, 1, none⟩,
      ⟨"u3", "ambulance", "available", 1, 1, none⟩] : List Vehicle).filter
        (fun v => v.vtype == py_norm "ambulance" && v.status == "available")
      ≠ [] ∧
    ∃ best ∈ ([⟨"u1", "ambulance", "available", 10, 0, none⟩,
        ⟨"u2", "ambulance", "available", 1, 1, none⟩,
        ⟨"u3", "ambulance", "available", 1, 1, none⟩] : List Vehicle).filter
          (fun v => v.vtype == py_norm "ambulance" && v.status == "available"),
      (∃ l1 l2,
        ([⟨"u1", "ambulance", "available", 10, 0, none⟩,
          ⟨"u2", "ambulance", "available", 1, 1, none⟩,
          ⟨"u3", "ambulance", "available", 1, 1, none⟩] : List Vehicle).filter
            (fun v => v.vtype == py_norm "ambulance" && v.status == "available")
          = l1 ++ best :: l2 ∧
        ∀ v ∈ l1, haversineQ 0 0 best.lat best.lon
            < haversineQ 0 0 v.lat v.lon) ∧
      (∀ v ∈ ([⟨"u1", "ambulance", "available", 10, 0, none⟩,
          ⟨"u2", "ambulance", "available", 1, 1, none⟩,
          ⟨"u3", "ambulance", "available", 1, 1, none⟩] : List Vehicle).filter
            (fun v => v.vtype == py_norm "ambulance" && v.status == "available"),
        haversineQ 0 0 best.lat best.lon ≤ haversineQ 0 0 v.lat v.lon) ∧
      request_unit haversineQ
          [⟨"u1", "ambulance", "available", 10, 0, none⟩,
           ⟨"u2", "ambulance", "available", 1, 1, none⟩,
           ⟨"u3", "ambulance", "available", 1, 1, none⟩]
          "ambulance" (some [some 0, some 0])
        = (.assigned best.id best.lat best.lon 0 0,
           ([⟨"u1", "ambulance", "available", 10, 0, none⟩,
             ⟨"u2", "ambulance", "available", 1, 1, none⟩,
             ⟨"u3", "ambulance", "available", 1, 1, none⟩] : List Vehicle).map
             (fun w =>
               if w.id = best.id then { w with status := "busy" } else w)) ∧
      (([⟨"u1", "ambulance", "available", 10, 0, none⟩,
         ⟨"u2", "ambulance", "available", 1, 1, none⟩,
         ⟨"u3", "ambulance", "available", 1, 1, none⟩] : List Vehicle).map
          (fun v => v.id)).count best.id = 1 :=
  ⟨by decide, by decide,
    C4_closest_first_and_reserved _ "ambulance" 0 0 (by decide) (by decide)⟩

/-! ### Claim C5 (per-station weights) -/

theorem station_weight_eq_spec (factor : Factor) (vt : String) (s : Station)
    (hcap : 0 ≤ (cap_field vt s).getD 0) :
    station_weight factor vt s = spec_weight factor vt s := by
  cases hcf : cap_field vt s with
  | none => simp [station_weight, spec_weight, hcf]
  | some c =>
    rw [hcf, Option.getD_some] at hcap
    rcases eq_or_lt_of_le hcap with hc0 | hcpos
    · simp [station_weight, spec_weight, hcf, ← hc0]
    · simp only [station_weight, spec_weight, hcf, Option.getD_some,
        hot_multiplier]
      rw [if_neg (not_le.mpr hcpos), if_neg (by omega : ¬ c = 0), mul_one,
        pyRound_intCast]
      set w : Int := if py_norm s.region = py_norm factor.region then
          pyRound ((c : ℚ) * (1 + safe_float factor.expected_call_volume))
        else c with hw
      rcases lt_or_ge w 0 with hneg | hpos
      · rw [if_pos hneg, max_eq_right (le_of_lt hneg)]
        simp
      · rw [if_neg (not_lt.mpr hpos), max_eq_left hpos]
        rcases eq_or_lt_of_le hpos with h0 | hgt
        · rw [← h0]
          simp
        · rw [if_pos hgt, if_neg (by omega : ¬ w = 0)]

theorem compute_station_weights_eq (stations : List Station) (factor : Factor)
    (vt : String) (hnd : (stations.map (fun s => s.id)).Nodup) :
    compute_station_weights stations factor vt
      = stations.filterMap (fun s =>
          (station_weight factor vt s).map (fun w => (s.id, w))) := by
  have aux : ∀ (ss : List Station) (d : List (String × Int)),
      (∀ s ∈ ss, ∀ p ∈ d, p.1 ≠ s.id) → (ss.map (fun s => s.id)).Nodup →
      ss.foldl (fun d s =>
        match station_weight factor vt s with
        | none => d
        | some w => dict_insert d s.id w) d
      = d ++ ss.filterMap (fun s =>
          (station_weight factor vt s).map (fun w => (s.id, w))) := by
    intro ss
    induction ss with
    | nil =>
      intro d _ _
      simp
    | cons s rest ih =>
      intro d hdisj hnd2
      simp only [List.foldl_cons, List.filterMap_cons]
      cases hsw : station_weight factor vt s with
      | none =>
        simp only [hsw, Option.map_none]
        exact ih d
          (fun s2 hs2 p hp => hdisj s2 (List.mem_cons_of_mem _ hs2) p hp)
          ((List.nodup_cons.mp (by simpa using hnd2)).2)
      | some w =>
        have hno : d.any (fun p => p.1 == s.id) = false := by
          rw [List.any_eq_false]
          intro p hp
          simpa using hdisj s (List.mem_cons_self _ _) p hp
        have hid : s.id ∉ rest.map (fun s2 => s2.id) :=
          (List.nodup_cons.mp (by simpa using hnd2)).1
        have hdi : dict_insert d s.id w = d ++ [(s.id, w)] := by
          simp only [dict_insert, hno, Bool.false_eq_true, if_false]
        have hdisj2 : ∀ s2 ∈ rest, ∀ p ∈ d ++ [(s.id, w)], p.1 ≠ s2.id := by
          intro s2 hs2 p hp
          rcases List.mem_append.mp hp with h | h
          · exact hdisj s2 (List.mem_cons_of_mem _ hs2) p h
          · simp only [List.mem_singleton] at h
            rw [h]
            intro hcontra
            have hids : s.id = s2.id := hcontra
            exact hid (by rw [hids]; exact List.mem_map_of_mem (fun s2 => s2.id) hs2)
        simp only [hsw, Option.map_some]
        rw [hdi, ih (d ++ [(s.id, w)]) hdisj2
            ((List.nodup_cons.mp (by simpa using hnd2)).2),
          List.append_assoc]
        rfl
  have h0 : ∀ s ∈ stations, ∀ p ∈ ([] : List (String × Int)), p.1 ≠ s.id := by
    intro s _ p hp
    simp at hp
  simpa using aux stations [] h0 hnd

/-- C5: under the data model's constraints (distinct station ids,
non-negative parsed capacities), the weight dict computed by
`compute_station_weights` contains exactly the stations, in input order,
whose weight as the specification words it (`spec_weight`) is defined:
capacity missing/unparsable/zero excluded, hot-region capacity multiplied by
`(1 + expected_call_volume)` and rounded, other capacities unchanged, clamped
non-negative, zero excluded. -/
theorem C5_station_weights (stations : List Station) (factor : Factor)
    (vt : String)
    (hnd : (stations.map (fun s => s.id)).Nodup)
    (hcap : ∀ s ∈ stations, 0 ≤ (cap_field vt s).getD 0) :
    compute_station_weights stations factor vt
      = stations.filterMap (fun s =>
          (spec_weight factor vt s).map (fun w => (s.id, w))) := by
  rw [compute_station_weights_eq stations factor vt hnd]
  exact List.filterMap_congr (fun s hs => by
    rw [station_weight_eq_spec factor vt s (hcap s hs)])

/-- Witness for `C5_station_weights`: one hot-region station (capacity 3,
multiplier 2), one other station, one zero-capacity station. -/
theorem C5_station_weights_witness :
    (([⟨"s1", "east", 5, 6, some 3, none, none⟩,
       ⟨"s2", "west", 7, 8, some 3, some 1, none⟩,
       ⟨"s3", "east", 9, 9, some 0, none, none⟩] : List Station).map
        (fun s => s.id)).Nodup ∧
    (∀ s ∈ ([⟨"s1", "east", 5, 6, some 3, none, none⟩,
        ⟨"s2", "west", 7, 8, some 3, some 1, none⟩,
        ⟨"s3", "east", 9, 9, some 0, none, none⟩] : List Station),
      0 ≤ (cap_field "ambulance" s).getD 0) ∧
    compute_station_weights
        [⟨"s1", "east", 5, 6, some 3, none, none⟩,
         ⟨"s2", "west", 7, 8, some 3, some 1, none⟩,
         ⟨"s3", "east", 9, 9, some 0, none, none⟩] ⟨"1", "east", some 1⟩
        "ambulance"
      = ([⟨"s1", "east", 5, 6, some 3, none, none⟩,
          ⟨"s2", "west", 7, 8, some 3, some 1, none⟩,
          ⟨"s3", "east", 9, 9, some 0, none, none⟩] : List Station).filterMap
          (fun s => (spec_weight ⟨"1", "east", some 1⟩ "ambulance" s).map
            (fun w => (s.id, w))) :=
  ⟨by decide, by decide,
    C5_station_weights _ ⟨"1", "east", some 1⟩ "ambulance" (by decide) (by decide)⟩

/-! ### Claim C6 (weighted round-robin cycle assignment) -/

theorem station_weight_pos (factor : Factor) (vt : String) (s : Station)
    (w : Int) (h : station_weight factor vt s = some w) : 0 < w := by
  simp only [station_weight] at h
  repeat' split at h
  all_goals first
    | exact Option.noConfusion h
    | (obtain rfl := Option.some.inj h; assumption)

theorem flatten_map_filterMap {α β γ : Type} (f : α → Option β)
    (g : β → List γ) (l : List α) :
    ((l.filterMap f).map g).flatten
      = (l.map (fun a => match f a with
          | some b => g b
          | none => [])).flatten := by
  induction l with
  | nil => rfl
  | cons a rest ih =>
    cases hfa : f a with
    | none => simp [List.filterMap_cons, hfa, ih]
    | some b => simp [List.filterMap_cons, hfa, ih]

theorem cycle_list_eq (stations : List Station) (factor : Factor) (t : String)
    (hnd : (stations.map (fun s => s.id)).Nodup) :
    cycle_list stations factor t
      = (stations.map (fun s =>
          match station_weight factor t s with
          | some w => List.replicate w.toNat s.id
          | none => [])).flatten := by
  unfold cycle_list
  rw [compute_station_weights_eq stations factor t hnd, flatten_map_filterMap]
  congr 1
  apply List.map_congr_left
  intro s _
  cases hsw : station_weight factor t s with
  | none => simp [hsw]
  | some w => simp [hsw]

theorem cycle_list_ne_nil (stations : List Station) (factor : Factor)
    (t : String) (hnd : (stations.map (fun s => s.id)).Nodup)
    (hW : compute_station_weights stations factor t ≠ []) :
    cycle_list stations factor t ≠ [] := by
  cases hw : compute_station_weights stations factor t with
  | nil => exact absurd hw hW
  | cons p rest =>
    have hp : 0 < p.2 := by
      have hmem : p ∈ compute_station_weights stations factor t := by
        rw [hw]
        exact List.mem_cons_self _ _
      rw [compute_station_weights_eq stations factor t hnd] at hmem
      obtain ⟨s, _, hmap⟩ := List.mem_filterMap.mp hmem
      cases hsw : station_weight factor t s with
      | none =>
        rw [hsw] at hmap
        simp at hmap
      | some w =>
        rw [hsw] at hmap
        have hmap2 : some (s.id, w) = some p := hmap
        obtain rfl := Option.some.inj hmap2
        exact station_weight_pos factor t s w hsw
    unfold cycle_list
    rw [hw]
    simp only [List.map_cons, List.flatten_cons]
    intro hcontra
    have h1 : List.replicate p.2.toNat p.1 = [] :=
      (List.append_eq_nil.mp hcontra).1
    have h2 : p.2.toNat = 0 := by
      simpa using congrArg List.length h1
    omega

theorem cycle_list_mem (stations : List Station) (factor : Factor)
    (t : String) (hnd : (stations.map (fun s => s.id)).Nodup) (sid : String)
    (hmem : sid ∈ cycle_list stations factor t) :
    ∃ s ∈ stations, s.id = sid ∧ ∃ w, station_weight factor t s = some w := by
  unfold cycle_list at hmem
  rw [compute_station_weights_eq stations factor t hnd] at hmem
  simp only [List.mem_flatten, List.mem_map] at hmem
  obtain ⟨l, ⟨p, hp, hl⟩, hsl⟩ := hmem
  rw [← hl] at hsl
  have hsid : sid = p.1 := List.eq_of_mem_replicate hsl
  obtain ⟨s, hs, hmap⟩ := List.mem_filterMap.mp hp
  cases hsw : station_weight factor t s with
  | none =>
    rw [hsw] at hmap
    simp at hmap
  | some w =>
    rw [hsw] at hmap
    have hmap2 : some (s.id, w) = some p := hmap
    obtain rfl := Option.some.inj hmap2
    exact ⟨s, hs, hsid.symm, w, hsw⟩

theorem station_lookup_mem (stations : List Station) (s : Station)
    (hs : s ∈ stations) (hnd : (stations.map (fun s => s.id)).Nodup) :
    station_lookup stations s.id = some s := by
  have h1 : (stations.reverse.find? (fun s2 => s2.id == s.id)).isSome := by
    rw [List.find?_isSome]
    exact ⟨s, List.mem_reverse.mpr hs, by simp⟩
  obtain ⟨st, hfind⟩ := Option.isSome_iff_exists.mp h1
  have hstmem : st ∈ stations := List.mem_reverse.mp
    (List.mem_of_find?_eq_some hfind)
  have hstid : st.id = s.id := by simpa using List.find?_some hfind
  have hst : st = s :=
    List.inj_on_of_nodup_map hnd hstmem hs hstid
  unfold station_lookup
  rw [hfind, hst]

theorem assign_go_get?_uniform (stations : List Station) (factor : Factor)
    (t : String) :
    ∀ (vs : List Vehicle) (cnt : String → Nat) (i : Nat) (v : Vehicle),
      (∀ u ∈ vs, norm_type u = t) → vs.get? i = some v →
      (assign_go stations factor vs cnt).get? i
        = some (assign_one stations factor (cnt t + i) v) := by
  intro vs
  induction vs with
  | nil =>
    intro cnt i v _ h
    simp at h
  | cons w rest ih =>
    intro cnt i v hall h
    match i with
    | 0 =>
      rw [List.get?_cons_zero] at h
      obtain rfl := Option.some.inj h
      have hw2 : norm_type w = t := hall w (List.mem_cons_self _ _)
      simp only [assign_go, List.get?_cons_zero, hw2, Nat.add_zero]
    | Nat.succ j =>
      rw [List.get?_cons_succ] at h
      have hw : norm_type w = t := hall w (List.mem_cons_self _ _)
      simp only [assign_go, List.get?_cons_succ, hw]
      rw [ih (fun s => if s = t then cnt t + 1 else cnt s) j v
          (fun u hu => hall u (List.mem_cons_of_mem _ hu)) h]
      rw [show (if t = t then cnt t + 1 else cnt t) = cnt t + 1 from if_pos rfl]
      rw [show cnt t + 1 + j = cnt t + (j + 1) from by omega]

/-- C6: with distinct station ids, a known type `t`, a vehicle list entirely
of that type and a non-empty weight dict, the flattened cycle list repeats
each weighted station's id exactly its weight many consecutive times, in the
station input's original order; unit `i` (0-indexed) is assigned to the
station whose id sits at `cycle[i mod len(cycle)]`, its position overwritten
with that station's coordinates and its `station_id` set to that id. -/
theorem C6_weighted_round_robin (stations : List Station) (factor : Factor)
    (t : String) (vehicles : List Vehicle)
    (hnd : (stations.map (fun s => s.id)).Nodup)
    (ht : t ∈ known_types)
    (hall : ∀ v ∈ vehicles, norm_type v = t)
    (hW : compute_station_weights stations factor t ≠ []) :
    cycle_list stations factor t ≠ [] ∧
    cycle_list stations factor t
      = (stations.map (fun s =>
          match station_weight factor t s with
          | some w => List.replicate w.toNat s.id
          | none => [])).flatten ∧
    (assign_vehicles_to_stations vehicles stations factor).length
        = vehicles.length ∧
    ∀ i v, vehicles.get? i = some v →
      ∃ st ∈ stations,
        (cycle_list stations factor t).get?
            (i % (cycle_list stations factor t).length) = some st.id ∧
        (assign_vehicles_to_stations vehicles stations factor).get? i
          = some
              { v with
                lat := st.lat
                lon := st.lon
                station_id := some st.id } := by
  have hcyc_ne := cycle_list_ne_nil stations factor t hnd hW
  refine ⟨hcyc_ne, cycle_list_eq stations factor t hnd,
    assign_go_length stations factor vehicles _, ?_⟩
  intro i v hv
  have hlen : 0 < (cycle_list stations factor t).length :=
    List.length_pos.mpr hcyc_ne
  have hmod : i % (cycle_list stations factor t).length
      < (cycle_list stations factor t).length := Nat.mod_lt _ hlen
  have hget : (cycle_list stations factor t).get?
      (i % (cycle_list stations factor t).length)
      = some ((cycle_list stations factor t).get ⟨_, hmod⟩) :=
    List.get?_eq_get hmod
  have hsidmem : (cycle_list stations factor t).get ⟨_, hmod⟩
      ∈ cycle_list stations factor t := List.get_mem _ _ _
  obtain ⟨s, hs, hsid, w, hsw⟩ :=
    cycle_list_mem stations factor t hnd _ hsidmem
  have hlook : station_lookup stations
      ((cycle_list stations factor t).get ⟨_, hmod⟩) = some s := by
    rw [← hsid]
    exact station_lookup_mem stations s hs hnd
  refine ⟨s, hs, by rw [hget, hsid], ?_⟩
  unfold assign_vehicles_to_stations
  rw [assign_go_get?_uniform stations factor t vehicles _ i v hall hv]
  have hvt : norm_type v = t := hall v (List.get?_mem hv)
  have hWempty : (compute_station_weights stations factor t).isEmpty = false := by
    cases hcw : compute_station_weights stations factor t with
    | nil => exact absurd hcw hW
    | cons a b => rfl
  have hCempty : (cycle_list stations factor t).isEmpty = false := by
    cases hcw : cycle_list stations factor t with
    | nil => exact absurd hcw hcyc_ne
    | cons a b => rfl
  simp only [assign_one, hvt, if_pos ht, target_station, hWempty, hCempty,
    Bool.false_eq_true, if_false, Nat.zero_add]
  rw [hget]
  dsimp only
  rw [hlook]
  dsimp only
  rw [← hsid]

/-- Witness for `C6_weighted_round_robin`: one ambulance station of weight 2
and two ambulances. -/
theorem C6_weighted_round_robin_witness :
    (([⟨"s1", "east", 5, 6, some 2, none, none⟩] : List Station).map
        (fun s => s.id)).Nodup ∧
    "ambulance" ∈ known_types ∧
    (∀ v ∈ ([⟨"a1", "ambulance", "available", 0, 0, none⟩,
        ⟨"a2", "ambulance", "busy", 1, 1, none⟩] : List Vehicle),
      norm_type v = "ambulance") ∧
    compute_station_weights [⟨"s1", "east", 5, 6, some 2, none, none⟩]
        ⟨"1", "west", some 0⟩ "ambulance" ≠ [] ∧
    (cycle_list [⟨"s1", "east", 5, 6, some 2, none, none⟩]
        ⟨"1", "west", some 0⟩ "ambulance" ≠ [] ∧
    cycle_list [⟨"s1", "east", 5, 6, some 2, none, none⟩]
        ⟨"1", "west", some 0⟩ "ambulance"
      = (([⟨"s1", "east", 5, 6, some 2, none, none⟩] : List Station).map
          (fun s =>
            match station_weight ⟨"1", "west", some 0⟩ "ambulance" s with
            | some w => List.replicate w.toNat s.id
            | none => [])).flatten ∧
    (assign_vehicles_to_stations
        [⟨"a1", "ambulance", "available", 0, 0, none⟩,
         ⟨"a2", "ambulance", "busy", 1, 1, none⟩]
        [⟨"s1", "east", 5, 6, some 2, none, none⟩]
        ⟨"1", "west", some 0⟩).length = 2 ∧
    ∀ i v, ([⟨"a1", "ambulance", "available", 0, 0, none⟩,
        ⟨"a2", "ambulance", "busy", 1, 1, none⟩] : List Vehicle).get? i
          = some v →
      ∃ st ∈ ([⟨"s1", "east", 5, 6, some 2, none, none⟩] : List Station),
        (cycle_list [⟨"s1", "east", 5, 6, some 2, none, none⟩]
            ⟨"1", "west", some 0⟩ "ambulance").get?
            (i % (cycle_list [⟨"s1", "east", 5, 6, some 2, none, none⟩]
              ⟨"1", "west", some 0⟩ "ambulance").length) = some st.id ∧
        (assign_vehicles_to_stations
            [⟨"a1", "ambulance", "available", 0, 0, none⟩,
             ⟨"a2", "ambulance", "busy", 1, 1, none⟩]
            [⟨"s1", "east", 5, 6, some 2, none, none⟩]
            ⟨"1", "west", some 0⟩).get? i
          = some
              { v with
                lat := st.lat
                lon := st.lon
                station_id := some st.id }) := by
  have hW : compute_station_weights [⟨"s1", "east", 5, 6, some 2, none, none⟩]
      ⟨"1", "west", some 0⟩ "ambulance" ≠ [] := by
    have h2 : py_norm "east" = "east" := by decide
    have h3 : py_norm "west" = "west" := by decide
    have h5 : pyRound ((2 : ℚ) * 1) = 2 := by
      rw [show ((2 : ℚ) * 1) = ((2 : Int) : ℚ) by norm_num, pyRound_intCast]
    have h6 : pyRound ((2 : ℚ)) = 2 := by
      rw [show ((2 : ℚ)) = ((2 : Int) : ℚ) by norm_num, pyRound_intCast]
    simp [compute_station_weights, station_weight, cap_field, hot_multiplier,
      safe_float, dict_insert, h2, h3, h5, h6, mul_one]
  exact ⟨by decide, by decide, by decide, hW,
    C6_weighted_round_robin [⟨"s1", "east", 5, 6, some 2, none, none⟩]
      ⟨"1", "west", some 0⟩ "ambulance"
      [⟨"a1", "ambulance", "available", 0, 0, none⟩,
       ⟨"a2", "ambulance", "busy", 1, 1, none⟩]
      (by decide) (by decide) (by decide) hW⟩
